import Mathlib

/-!
Verification of the halloween-gan dataset-preparation scripts.

The per-image cleaning pipeline (`src/data/process_data.py`), the
deduplication copy phase (`src/data/dedup_images.py`), the scraper
download loops (`src/data/scrape_walmart_images.py`,
`src/data/scrape_google_images.py`) and the pretrained-model caching
(`src/data/face_detection.py`) are shallowly embedded below; machine
arithmetic on coordinates and ratios is modelled exactly over `ℚ`.
-/

namespace HalloweenGan

/-- An RGBA pixel value; channels are modelled exactly as rationals. -/
structure RGBA where
  r : ℚ
  g : ℚ
  b : ℚ
  a : ℚ

/-- A raster image: width and height together with a total pixel-sampling
function, as manipulated by `PIL.Image` in `process_data.py`. -/
structure Image where
  width : ℚ
  height : ℚ
  pixel : ℚ → ℚ → RGBA

/-- An axis-aligned rectangle given by two opposite corners `(x1, y1)`
(top-left) and `(x2, y2)` (bottom-right), the convention of
`FaceDetectionResult.bounding_box` in `face_detection.py` and of the PIL
crop box in `process_data.py`. -/
structure Rect where
  x1 : ℚ
  y1 : ℚ
  x2 : ℚ
  y2 : ℚ

/-- `PIL.Image.crop`: the result has size `(x2 - x1, y2 - y1)` and samples
the source translated by the box's top-left corner. -/
def Image.crop (img : Image) (box : Rect) : Image :=
  { width := box.x2 - box.x1
    height := box.y2 - box.y1
    pixel := fun x y => img.pixel (x + box.x1) (y + box.y1) }

/-- A detected face: bounding box plus confidence, mirroring
`FaceDetectionResult` in `face_detection.py`. -/
structure FaceDetectionResult where
  bounding_box : Rect
  confidence : ℚ

/-- A segmentation map, given by the list of foreground pixel coordinates
(the per-pixel mask of the spec's Subject Segmenter). -/
def SegMap : Type := List (ℤ × ℤ)

/-- Modelled from the spec: `u2net_wrapper.U2Net.get_bounding_box` (the
module is not in the repository snapshot).  The Subject Bounding Box is
the minimal rectangle enclosing the foreground pixels of the
Segmentation Map, in the exclusive right/bottom convention PIL's crop
expects. -/
def get_bounding_box (seg : SegMap) : Rect :=
  match seg with
  | [] => ⟨0, 0, 0, 0⟩
  | p :: ps =>
    { x1 := (ps.foldl (fun m q => min m q.1) p.1 : ℤ)
      y1 := (ps.foldl (fun m q => min m q.2) p.2 : ℤ)
      x2 := ((ps.foldl (fun m q => max m q.1) p.1 : ℤ) : ℚ) + 1
      y2 := ((ps.foldl (fun m q => max m q.2) p.2 : ℤ) : ℚ) + 1 }

/-- The image with its alpha channel restricted to the foreground pixels
of the Segmentation Map (the successful branch of `remove_background`). -/
def bgRemoved (img : Image) (seg : SegMap) : Image :=
  { img with
    pixel := fun x y =>
      let p := img.pixel x y
      if seg.any (fun q => (q.1 : ℚ) = x ∧ (q.2 : ℚ) = y) then p
      else { p with a := 0 } }

/-- Modelled from the spec: `u2net_wrapper.U2Net.remove_background` (the
module is not in the repository snapshot).  It derives an alpha channel
from the Segmentation Map, and fails with `InvalidImageError` — the
spec's `InvalidSubject` — exactly when the map has no foreground pixels
(empty segmentation result). -/
def remove_background (img : Image) (seg : SegMap) : Option Image :=
  match seg with
  | [] => none
  | _ :: _ => some (bgRemoved img seg)

/-- The configuration record of `process_data.main` (the parsed CLI
arguments that the per-image loop reads). -/
structure Config where
  face_image_ratio_threshold : ℚ
  crop_faces : Bool
  remove_transparency : Bool
  bg_colour : RGBA

/-- `Image.new('RGBA', size, colour)` followed by `paste(image, (0,0),
image)` and `convert('RGB')`: alpha-composite the image over an opaque
canvas of the background colour. -/
def flatten (img : Image) (bg : RGBA) : Image :=
  { img with
    pixel := fun x y =>
      let p := img.pixel x y
      { r := p.a * p.r + (1 - p.a) * bg.r
        g := p.a * p.g + (1 - p.a) * bg.g
        b := p.a * p.b + (1 - p.a) * bg.b
        a := 1 } }

/-- One source image together with the external collaborators' results
for it: the detected faces and the segmentation map. -/
structure SourceItem where
  stem : String
  image : Image
  faces : List FaceDetectionResult
  seg : SegMap

/-- The body of the per-image loop of `process_data.main` (lines 91-139):
`none` means the image is skipped (no output written), `some` carries the
Processed Image that gets saved. -/
def processImage (cfg : Config) (item : SourceItem) : Option Image :=
  -- Skip images that don't have a single face in them...
  if item.faces.length ≠ 1 then none
  else
    match remove_background item.image item.seg with
    | none => none  -- except InvalidImageError: continue
    | some image0 =>
      -- Crop image to bounding box (using U2Net)
      let bounding_box := get_bounding_box item.seg
      let image1 := image0.crop bounding_box
      match item.faces.head? with
      | none => none  -- unreachable: the face count is exactly 1
      | some face =>
        let fbb := face.bounding_box
        let fbb_width := fbb.x2 - fbb.x1
        let fbb_height := fbb.y2 - fbb.y1
        -- Compute the face-to-image area ratio.
        let face_image_ratio :=
          (fbb_width * fbb_height) / (image1.width * image1.height)
        if face_image_ratio > cfg.face_image_ratio_threshold then none
        else
          let image2 :=
            if cfg.crop_faces then
              -- Convert the bottom-right y-coordinate of the face bounding
              -- box into the coordinate system AFTER cropping.
              let adjusted_fbb_y2 := fbb.y2 - bounding_box.y1
              image1.crop
                ⟨0, adjusted_fbb_y2 - fbb_height * (1/10),
                 image1.width, image1.height⟩
            else image1
          let image3 :=
            if cfg.remove_transparency then flatten image2 cfg.bg_colour
            else image2
          some image3

/-- The face-to-image area ratio as `process_data.main` computes it at
line 118: face box area over the area of the image cropped to the
Subject Bounding Box. -/
def faceAreaRatio (item : SourceItem) (face : FaceDetectionResult) : ℚ :=
  let fbb := face.bounding_box
  let bb := get_bounding_box item.seg
  ((fbb.x2 - fbb.x1) * (fbb.y2 - fbb.y1)) / ((bb.x2 - bb.x1) * (bb.y2 - bb.y1))

/-- The whole batch loop of `process_data.main`: each surviving image is
written once, as `<original_stem>.png` in the destination directory. -/
def processBatch (cfg : Config) (items : List SourceItem) :
    List (String × Image) :=
  items.filterMap fun item =>
    (processImage cfg item).map fun img => (item.stem ++ ".png", img)

/-- The image after background removal and cropping to the Subject
Bounding Box — the frame in which `process_data.main` measures the
face-to-image area ratio. -/
def croppedFrame (item : SourceItem) : Image :=
  (bgRemoved item.image item.seg).crop (get_bounding_box item.seg)

/-- The steps of the per-image loop after the face-area-ratio filter has
passed: the optional head crop and the optional transparency flattening
(lines 122-135 of `process_data.py`). -/
def afterFilter (cfg : Config) (item : SourceItem) (f : FaceDetectionResult) :
    Image :=
  let bounding_box := get_bounding_box item.seg
  let image1 := croppedFrame item
  let fbb := f.bounding_box
  let fbb_height := fbb.y2 - fbb.y1
  let image2 :=
    if cfg.crop_faces then
      image1.crop
        ⟨0, (fbb.y2 - bounding_box.y1) - fbb_height * (1/10),
         image1.width, image1.height⟩
    else image1
  if cfg.remove_transparency then flatten image2 cfg.bg_colour else image2

/-! Concrete inputs used by the witness theorems. -/

/-- An opaque white pixel. -/
def testPixel : RGBA := ⟨1, 1, 1, 1⟩

/-- A 100×100 test image. -/
def testImage : Image := ⟨100, 100, fun _ _ => testPixel⟩

/-- A detected face with bounding box `(0,0,2,2)` (area 4). -/
def testFace : FaceDetectionResult := ⟨⟨0, 0, 2, 2⟩, 9/10⟩

/-- A segmentation map whose Subject Bounding Box is `(0,0,10,10)`
(cropped area 100, differing from the 100×100 original). -/
def testSeg : SegMap := [(0, 0), (9, 9)]

/-- A source item with exactly one detected face. -/
def testItem : SourceItem := ⟨"img001", testImage, [testFace], testSeg⟩

/-- A configuration whose ratio threshold 1/20 is above the test item's
face-area ratio 1/25. -/
def testConfig : Config := ⟨1/20, false, true, ⟨1, 1, 1, 1⟩⟩

/-- A configuration whose ratio threshold equals the test item's
face-area ratio exactly. -/
def boundaryConfig : Config := ⟨1/25, false, true, ⟨1, 1, 1, 1⟩⟩

/-- The y-coordinate above which rows are discarded by the head crop:
the face's bottom y translated into the cropped frame minus one tenth of
the face height (line 129 of `process_data.py`,
`adjusted_fbb_y2 - fbb_height * 0.10`). -/
def headCropTop (item : SourceItem) (f : FaceDetectionResult) : ℚ :=
  (f.bounding_box.y2 - (get_bounding_box item.seg).y1) -
    (f.bounding_box.y2 - f.bounding_box.y1) * (1/10)

/-- A face whose bottom sits at y = 200 of the cropped frame with height
100 (the spec's head-crop scenario). -/
def cropFace : FaceDetectionResult := ⟨⟨0, 100, 100, 200⟩, 9/10⟩

/-- A segmentation map whose Subject Bounding Box is `(0,0,1000,1000)`. -/
def cropSeg : SegMap := [(0, 0), (999, 999)]

/-- A source item realizing the spec's head-crop scenario. -/
def cropItem : SourceItem := ⟨"img002", testImage, [cropFace], cropSeg⟩

/-- A configuration with `crop_faces` on and transparency kept. -/
def cropConfig : Config := ⟨1/20, true, false, ⟨1, 1, 1, 1⟩⟩

/-- A source item with zero detected faces. -/
def noFaceItem : SourceItem := ⟨"img003", testImage, [], testSeg⟩

/-- A source item whose segmentation map has no foreground pixels. -/
def emptySegItem : SourceItem := ⟨"img004", testImage, [testFace], []⟩

/-! Scraper download loops (`scrape_walmart_images.py`,
`scrape_google_images.py`).  A download function returns `none` when
`requests.get` raises a network error, `some content` on success. -/

/-- The module-level download loop of `scrape_walmart_images.py`
(lines 220-227).  There is no exception handling around `requests.get`,
so a failing download propagates out of the loop: the result is `some`
list of the file contents written, or `none` when the loop was aborted
by a network error. -/
def walmartDownloadLoop (download : String → Option String) :
    List String → Option (List String)
  | [] => some []
  | url :: rest =>
    match download url with
    | none => none
    | some content =>
      (walmartDownloadLoop download rest).map fun files => content :: files

/-- The state of the Google Images scrape loop: the seen-set of URL
strings and the contents of the files written so far. -/
structure GoogleState where
  links : List String
  files : List String

/-- Processing of one clicked thumbnail's image sources in
`scrape_google_images.py` (lines 36-49): each `src` not already in the
seen-set is added to it and downloaded; a download failure raises out of
the per-thumbnail `try` block (`except: continue`), abandoning the rest
of this thumbnail's images but keeping the state accumulated so far. -/
def googleProcessSrcs (download : String → Option String)
    (st : GoogleState) : List String → GoogleState
  | [] => st
  | src :: rest =>
    if st.links.contains src then googleProcessSrcs download st rest
    else
      let st1 : GoogleState := ⟨src :: st.links, st.files⟩
      match download src with
      | none => st1
      | some content =>
        googleProcessSrcs download ⟨st1.links, st1.files ++ [content]⟩ rest

/-- The outer thumbnail loop of `scrape_google_images.py` (lines 33-53,
with the scroll/`max_images` bookkeeping abstracted to the list of
thumbnails seen): every thumbnail is processed in turn, each inside its
own `try`/`except: continue`. -/
def googleScrapeThumbnails (download : String → Option String)
    (st : GoogleState) : List (List String) → GoogleState
  | [] => st
  | srcs :: rest =>
    googleScrapeThumbnails download (googleProcessSrcs download st srcs) rest

/-- A download function that fails on the URL `"http://bad"` and
succeeds elsewhere, echoing the URL as the file content. -/
def failingDownload : String → Option String :=
  fun url => if url = "http://bad" then none else some url

/-! The deduplication copy phase (`dedup_images.py`). -/

/-- A file found by `get_all_image_filepaths`'s recursive glob: its
subdirectory path below the source root, its base name
(`Path.name`), and its contents. -/
structure SrcFile where
  dir : List String
  name : String
  content : String

/-- The copy loop of `dedup_images.main` (lines 78-81): every collected
file whose base name is not in the duplicates set is copied, in order,
to `destination / name` with its content unmodified.  The list records
the copy operations `(destination base name, content)` in order. -/
def copyOps (duplicates : List String) (files : List SrcFile) :
    List (String × String) :=
  files.filterMap fun f =>
    if duplicates.contains f.name then none else some (f.name, f.content)

/-- The copy phase as the spec words it: a pure filter — keep exactly
the files whose name is absent from the duplicates set, preserving
filename and content. -/
def copyPhaseSpec (duplicates : List String) (files : List SrcFile) :
    List (String × String) :=
  (files.filter fun f => !(duplicates.contains f.name)).map
    fun f => (f.name, f.content)

/-- The destination filepath of a copied file
(`args.destination_directory / image_filepath.name`, line 80): it
depends only on the base name, never on the source subdirectory. -/
def destFilepath (destDir : String) (f : SrcFile) : String :=
  destDir ++ "/" ++ f.name

/-- The contents at base name `n` after executing the copy operations in
order against an initially empty destination: `shutil.copyfile`
overwrites, so the last copy to a name wins. -/
def finalContents (ops : List (String × String)) (n : String) :
    Option String :=
  ((ops.filter fun q => q.1 == n).getLast?).map Prod.snd

/-! Pretrained-model weight caching (`face_detection.py`). -/

/-- `get_md5_from_file` (lines 33-55): the MD5 of the file's content, or
`none` if the file does not exist.  `md5` is the hash function, `file`
the content of the file at the path (`none` when absent). -/
def get_md5_from_file (md5 : String → String) (file : Option String) :
    Option String :=
  file.map md5

/-- The known-good MD5 of the face-detector prototxt
(`_DEFAULT_FILES`, line 63). -/
def prototxt_md5 : String := "bf7a2a8de014b7b187783f1da382485c"

/-- The known-good MD5 of the face-detector Caffe weights
(`_DEFAULT_FILES`, line 68). -/
def model_weights_md5 : String := "afbb6037fd180e8d2acb3b58ca737b9e"

/-- The fixed download URL of the prototxt (`_DEFAULT_FILES`, line 64). -/
def prototxt_url : String :=
  "https://github.com/opencv/opencv/raw/3.4.0/samples/dnn/face_detector/deploy.prototxt"

/-- The fixed download URL of the Caffe weights
(`_DEFAULT_FILES`, line 69). -/
def model_weights_url : String :=
  "https://github.com/opencv/opencv_3rdparty/raw/dnn_samples_face_detector_20170830/res10_300x300_ssd_iter_140000.caffemodel"

/-- The per-file body of `get_default_model_files` (lines 78-83): reuse
the cached file when its MD5 equals the known-good value
(`if get_md5_from_file(...) == file['md5']: continue`), otherwise
download from the fixed URL.  Returns the content now at the destination
path together with whether a download happened. -/
def ensureModelFile (md5 : String → String) (fetch : String → String)
    (known_md5 url : String) (cached : Option String) :
    Option String × Bool :=
  if get_md5_from_file md5 cached = some known_md5 then (cached, false)
  else (some (fetch url), true)

/-- `get_default_model_files` (lines 57-85): both model files are put
through the cache-or-download step with their own known MD5 and URL. -/
def get_default_model_files (md5 : String → String)
    (fetch : String → String) (cachedProto cachedWeights : Option String) :
    (Option String × Bool) × (Option String × Bool) :=
  (ensureModelFile md5 fetch prototxt_md5 prototxt_url cachedProto,
   ensureModelFile md5 fetch model_weights_md5 model_weights_url
     cachedWeights)

/-- A source file `a/x.png`. -/
def fileA : SrcFile := ⟨["a"], "x.png", "contentA"⟩

/-- A source file `b/x.png`: same base name as `fileA`, different
subdirectory, different contents. -/
def fileB : SrcFile := ⟨["b"], "x.png", "contentB"⟩

/-- A stand-in content hash for the witness theorems. -/
def md5Model : String → String := fun s => s

/-- A stand-in downloader for the witness theorems. -/
def fetchModel : String → String := fun url => String.append "dl:" url

/-- Unfolding of the per-image loop for an image with exactly one face
and a non-empty segmentation map: everything reduces to the
face-area-ratio test. -/
theorem processImage_char (cfg : Config) (item : SourceItem)
    (f : FaceDetectionResult) (p : ℤ × ℤ) (ps : List (ℤ × ℤ))
    (hf : item.faces = [f]) (hs : item.seg = p :: ps) :
    processImage cfg item =
      if faceAreaRatio item f > cfg.face_image_ratio_threshold then none
      else some (afterFilter cfg item f) := by
  unfold processImage
  rw [hf, hs]
  simp only [List.length_singleton, ne_eq, not_true_eq_false, if_false,
    ite_false, remove_background, List.head?]
  rw [← hs]
  simp only [faceAreaRatio, afterFilter, croppedFrame, Image.crop,
    bgRemoved]

/-- C1: for a source image with exactly one detected face (and a
non-empty segmentation map), the face-area ratio used by the pipeline is
the face box's area divided by the area of the image cropped to the
Subject Bounding Box — the denominator is the cropped image's
dimensions — and acceptance is decided by exactly this ratio. -/
theorem faceAreaRatio_uses_cropped_frame (cfg : Config) (item : SourceItem)
    (f : FaceDetectionResult) (p : ℤ × ℤ) (ps : List (ℤ × ℤ))
    (hf : item.faces = [f]) (hs : item.seg = p :: ps) :
    faceAreaRatio item f =
      ((f.bounding_box.x2 - f.bounding_box.x1) *
        (f.bounding_box.y2 - f.bounding_box.y1)) /
      ((croppedFrame item).width * (croppedFrame item).height) ∧
    ((processImage cfg item).isSome ↔
      faceAreaRatio item f ≤ cfg.face_image_ratio_threshold) := by
  constructor
  · rfl
  · rw [processImage_char cfg item f p ps hf hs]
    rcases le_or_lt (faceAreaRatio item f) cfg.face_image_ratio_threshold
      with h | h
    · rw [if_neg (not_lt.mpr h)]
      simp [h]
    · rw [if_pos h]
      simp only [Option.isSome_none, Bool.false_eq_true, false_iff]
      exact not_le.mpr h

/-- C1 witness: the 100×100 test image whose subject box crops it to
10×10 and whose single face has area 4 gives ratio 4/100 = 1/25. -/
theorem faceAreaRatio_uses_cropped_frame_witness :
    testItem.faces = [testFace] ∧ testItem.seg = (0, 0) :: [(9, 9)] ∧
    (faceAreaRatio testItem testFace =
      ((testFace.bounding_box.x2 - testFace.bounding_box.x1) *
        (testFace.bounding_box.y2 - testFace.bounding_box.y1)) /
      ((croppedFrame testItem).width * (croppedFrame testItem).height) ∧
     ((processImage testConfig testItem).isSome ↔
       faceAreaRatio testItem testFace ≤
         testConfig.face_image_ratio_threshold)) :=
  ⟨rfl, rfl,
    faceAreaRatio_uses_cropped_frame testConfig testItem testFace
      (0, 0) [(9, 9)] rfl rfl⟩

/-- C2: the face-area-ratio filter is a strict greater-than test — for
an image with exactly one face (and non-empty segmentation), the image
is rejected iff its ratio strictly exceeds the threshold, and a ratio
exactly equal to the threshold passes. -/
theorem ratio_filter_strict_gt (cfg : Config) (item : SourceItem)
    (f : FaceDetectionResult) (p : ℤ × ℤ) (ps : List (ℤ × ℤ))
    (hf : item.faces = [f]) (hs : item.seg = p :: ps) :
    (processImage cfg item = none ↔
      faceAreaRatio item f > cfg.face_image_ratio_threshold) ∧
    (faceAreaRatio item f = cfg.face_image_ratio_threshold →
      (processImage cfg item).isSome) := by
  rw [processImage_char cfg item f p ps hf hs]
  constructor
  · by_cases h : faceAreaRatio item f > cfg.face_image_ratio_threshold
    · simp [h]
    · simp [h]
  · intro he
    rw [if_neg (by simp [he])]
    simp

/-- C2 witness: with threshold 1/25 and face-area ratio exactly 1/25,
the test image passes (an output is produced). -/
theorem ratio_filter_strict_gt_witness :
    testItem.faces = [testFace] ∧ testItem.seg = (0, 0) :: [(9, 9)] ∧
    faceAreaRatio testItem testFace =
      boundaryConfig.face_image_ratio_threshold ∧
    (processImage boundaryConfig testItem).isSome :=
  ⟨rfl, rfl,
    by norm_num [faceAreaRatio, testItem, testFace, testSeg,
      get_bounding_box, boundaryConfig],
    (ratio_filter_strict_gt boundaryConfig testItem testFace
      (0, 0) [(9, 9)] rfl rfl).2
      (by norm_num [faceAreaRatio, testItem, testFace, testSeg,
        get_bounding_box, boundaryConfig])⟩

/-- C3: with `crop_faces` set, an image that passed the earlier filters
is output as the cropped image with every row strictly above
`face_bottom_y (in the cropped frame) - 0.10 * face_height` removed and
the full horizontal extent retained. -/
theorem crop_faces_removes_head_rows (cfg : Config) (item : SourceItem)
    (f : FaceDetectionResult) (p : ℤ × ℤ) (ps : List (ℤ × ℤ))
    (hf : item.faces = [f]) (hs : item.seg = p :: ps)
    (hr : faceAreaRatio item f ≤ cfg.face_image_ratio_threshold)
    (hc : cfg.crop_faces = true) (ht : cfg.remove_transparency = false) :
    ∃ out, processImage cfg item = some out ∧
      out.width = (croppedFrame item).width ∧
      out.height = (croppedFrame item).height - headCropTop item f ∧
      ∀ x y, out.pixel x y =
        (croppedFrame item).pixel x (y + headCropTop item f) := by
  rw [processImage_char cfg item f p ps hf hs, if_neg (not_lt.mpr hr)]
  refine ⟨afterFilter cfg item f, rfl, ?_, ?_, ?_⟩
  · simp [afterFilter, hc, ht, Image.crop]
  · simp [afterFilter, hc, ht, Image.crop, headCropTop]
  · intro x y
    simp [afterFilter, hc, ht, Image.crop, headCropTop]

/-- C3 witness: face bottom at y = 200 of the cropped frame, face height
100 — the output keeps rows from y = 190 downward only. -/
theorem crop_faces_removes_head_rows_witness :
    cropItem.faces = [cropFace] ∧ cropItem.seg = (0, 0) :: [(999, 999)] ∧
    faceAreaRatio cropItem cropFace ≤
      cropConfig.face_image_ratio_threshold ∧
    cropConfig.crop_faces = true ∧
    cropConfig.remove_transparency = false ∧
    headCropTop cropItem cropFace = 190 ∧
    (∃ out, processImage cropConfig cropItem = some out ∧
      out.width = (croppedFrame cropItem).width ∧
      out.height = (croppedFrame cropItem).height -
        headCropTop cropItem cropFace ∧
      ∀ x y, out.pixel x y =
        (croppedFrame cropItem).pixel x
          (y + headCropTop cropItem cropFace)) :=
  ⟨rfl, rfl,
    by norm_num [faceAreaRatio, cropItem, cropFace, cropSeg,
      get_bounding_box, cropConfig],
    rfl, rfl,
    by norm_num [headCropTop, cropItem, cropFace, cropSeg,
      get_bounding_box],
    crop_faces_removes_head_rows cropConfig cropItem cropFace
      (0, 0) [(999, 999)] rfl rfl
      (by norm_num [faceAreaRatio, cropItem, cropFace, cropSeg,
        get_bounding_box, cropConfig]) rfl rfl⟩

/-- C4: an image whose face count is not exactly one is skipped — no
output is produced for it, and the rest of the batch is processed
unchanged. -/
theorem face_count_filter (cfg : Config) (item : SourceItem)
    (h : item.faces.length ≠ 1) (pre post : List SourceItem) :
    processImage cfg item = none ∧
    processBatch cfg (pre ++ item :: post) =
      processBatch cfg pre ++ processBatch cfg post := by
  have h1 : processImage cfg item = none := by
    unfold processImage
    rw [if_pos h]
  refine ⟨h1, ?_⟩
  unfold processBatch
  rw [List.filterMap_append, List.filterMap_cons, h1]
  simp

/-- C4 witness: a faceless image sandwiched between two good images is
skipped while both neighbours are still processed. -/
theorem face_count_filter_witness :
    noFaceItem.faces.length ≠ 1 ∧
    (processImage testConfig noFaceItem = none ∧
      processBatch testConfig ([testItem] ++ noFaceItem :: [cropItem]) =
        processBatch testConfig [testItem] ++
          processBatch testConfig [cropItem]) :=
  ⟨by simp [noFaceItem],
    face_count_filter testConfig noFaceItem (by simp [noFaceItem])
      [testItem] [cropItem]⟩

/-- C5: an image whose segmentation map has no foreground pixels fails
background removal with `InvalidImageError` (the spec's
`InvalidSubject`), is silently skipped — no output — and the rest of the
batch is processed unchanged. -/
theorem empty_segmentation_skipped (cfg : Config) (item : SourceItem)
    (h : item.seg = []) (pre post : List SourceItem) :
    remove_background item.image item.seg = none ∧
    processImage cfg item = none ∧
    processBatch cfg (pre ++ item :: post) =
      processBatch cfg pre ++ processBatch cfg post := by
  have hrb : remove_background item.image item.seg = none := by
    rw [h]
    rfl
  have h1 : processImage cfg item = none := by
    unfold processImage
    rw [hrb]
    split
    · rfl
    · rfl
  refine ⟨hrb, h1, ?_⟩
  unfold processBatch
  rw [List.filterMap_append, List.filterMap_cons, h1]
  simp

/-- C5 witness: an image with an empty segmentation map is skipped while
both neighbours are still processed. -/
theorem empty_segmentation_skipped_witness :
    emptySegItem.seg = [] ∧
    (remove_background emptySegItem.image emptySegItem.seg = none ∧
      processImage testConfig emptySegItem = none ∧
      processBatch testConfig
          ([testItem] ++ emptySegItem :: [cropItem]) =
        processBatch testConfig [testItem] ++
          processBatch testConfig [cropItem]) :=
  ⟨rfl,
    empty_segmentation_skipped testConfig emptySegItem rfl
      [testItem] [cropItem]⟩

/-- A surviving image necessarily had exactly one detected face and a
face-area ratio within the threshold. -/
theorem processImage_some_implies (cfg : Config) (item : SourceItem)
    (out : Image) (h : processImage cfg item = some out) :
    ∃ f, item.faces = [f] ∧
      faceAreaRatio item f ≤ cfg.face_image_ratio_threshold := by
  have hf : ∃ f, item.faces = [f] := by
    by_contra hc
    have hl : item.faces.length ≠ 1 := by
      intro h1
      exact hc (List.length_eq_one.mp h1)
    unfold processImage at h
    rw [if_pos hl] at h
    exact Option.noConfusion h
  obtain ⟨f, hf⟩ := hf
  cases hseg : item.seg with
  | nil =>
    unfold processImage at h
    rw [hseg] at h
    simp only [remove_background] at h
    split at h
    · exact Option.noConfusion h
    · exact Option.noConfusion h
  | cons p ps =>
    rw [processImage_char cfg item f p ps hf hseg] at h
    by_cases hr : faceAreaRatio item f > cfg.face_image_ratio_threshold
    · rw [if_pos hr] at h
      exact Option.noConfusion h
    · exact ⟨f, hf, not_lt.mp hr⟩

/-- C6: each source image yields at most one output, batches decompose
image by image, and every output entry is named by some source item's
stem with a `.png` extension and comes from an item with exactly one
face whose face-area ratio passed the filter. -/
theorem output_invariant (cfg : Config) (items : List SourceItem) :
    (∀ item : SourceItem, (processBatch cfg [item]).length ≤ 1) ∧
    (∀ l1 l2 : List SourceItem,
      processBatch cfg (l1 ++ l2) =
        processBatch cfg l1 ++ processBatch cfg l2) ∧
    ∀ entry ∈ processBatch cfg items, ∃ item ∈ items,
      entry.1 = item.stem ++ ".png" ∧
      ∃ f, item.faces = [f] ∧
        faceAreaRatio item f ≤ cfg.face_image_ratio_threshold := by
  refine ⟨?_, ?_, ?_⟩
  · intro item
    rw [processBatch, List.filterMap]
    cases h : processImage cfg item <;> simp [h]
  · intro l1 l2
    rw [processBatch, List.filterMap_append]
    rfl
  · intro entry he
    rw [processBatch, List.mem_filterMap] at he
    obtain ⟨item, hmem, hmap⟩ := he
    cases hp : processImage cfg item with
    | none =>
      rw [hp] at hmap
      exact Option.noConfusion hmap
    | some out =>
      rw [hp] at hmap
      obtain ⟨f, hf, hr⟩ := processImage_some_implies cfg item out hp
      have hentry : (item.stem ++ ".png", out) = entry :=
        Option.some.inj hmap
      exact ⟨item, hmem, by rw [← hentry], f, hf, hr⟩

/-- C6 witness: the surviving test image is saved as `img001.png` (its
stem plus `.png`). -/
theorem output_invariant_witness :
    ("img001.png", afterFilter testConfig testItem testFace) ∈
      processBatch testConfig [testItem] ∧
    ∃ item ∈ [testItem],
      (("img001.png", afterFilter testConfig testItem testFace) :
        String × Image).1 = item.stem ++ ".png" ∧
      ∃ f, item.faces = [f] ∧
        faceAreaRatio item f ≤ testConfig.face_image_ratio_threshold := by
  have hp : processImage testConfig testItem =
      some (afterFilter testConfig testItem testFace) := by
    rw [processImage_char testConfig testItem testFace (0, 0) [(9, 9)]
      rfl rfl]
    rw [if_neg]
    norm_num [faceAreaRatio, testItem, testFace, testSeg,
      get_bounding_box, testConfig]
  have hmem : ("img001.png", afterFilter testConfig testItem testFace) ∈
      processBatch testConfig [testItem] := by
    rw [processBatch, List.filterMap_cons, hp]
    simp [testItem]
  exact ⟨hmem,
    (output_invariant testConfig [testItem]).2.2 _ hmem⟩

/-- C7 counterexample: the Walmart scraper's download loop has no
exception handling, so a network failure on one URL aborts the whole
batch — with the failing URL first, the other URL is never downloaded,
although alone it downloads fine. -/
theorem walmart_download_abort_counterexample :
    walmartDownloadLoop failingDownload ["http://bad", "http://good"] =
      none ∧
    walmartDownloadLoop failingDownload ["http://good"] =
      some ["http://good"] := by
  constructor
  · simp [walmartDownloadLoop, failingDownload]
  · simp [walmartDownloadLoop, failingDownload]

/-- C7 amended: in the Google Images scraper a download failure is
caught by the per-thumbnail handler — the failing URL is skipped (along
with the rest of that thumbnail's images) and the loop continues with
every remaining thumbnail; the Walmart scraper's download loop, by
contrast, is aborted by any failing URL. -/
theorem download_failure_handling (download : String → Option String)
    (src : String) (h : download src = none) :
    (∀ (st : GoogleState) (rest : List String),
      st.links.contains src = false →
      googleProcessSrcs download st (src :: rest) =
        ⟨src :: st.links, st.files⟩) ∧
    (∀ (st : GoogleState) (ts1 ts2 : List (List String)),
      googleScrapeThumbnails download st (ts1 ++ ts2) =
        googleScrapeThumbnails download
          (googleScrapeThumbnails download st ts1) ts2) ∧
    (∀ urls : List String, src ∈ urls →
      walmartDownloadLoop download urls = none) := by
  refine ⟨?_, ?_, ?_⟩
  · intro st rest hnot
    rw [googleProcessSrcs, hnot]
    simp [h]
  · intro st ts1 ts2
    induction ts1 generalizing st with
    | nil => rfl
    | cons t ts ih =>
      rw [List.cons_append, googleScrapeThumbnails,
        googleScrapeThumbnails, ih]
  · intro urls hmem
    induction urls with
    | nil => cases hmem
    | cons u rest ih =>
      rw [walmartDownloadLoop]
      rcases List.mem_cons.mp hmem with heq | hmem2
      · rw [← heq, h]
      · cases download u with
        | none => rfl
        | some _ =>
          rw [ih hmem2]
          rfl

/-- C7 witness: with a download function failing on `http://bad`, the
Google loop skips the failing source and keeps going, while the Walmart
loop aborts even though another URL precedes the failing one. -/
theorem download_failure_handling_witness :
    failingDownload "http://bad" = none ∧
    googleProcessSrcs failingDownload ⟨[], []⟩
      ("http://bad" :: ["http://a"]) = ⟨["http://bad"], []⟩ ∧
    walmartDownloadLoop failingDownload ["http://x", "http://bad"] =
      none := by
  have h := download_failure_handling failingDownload "http://bad"
    (by simp [failingDownload])
  exact ⟨by simp [failingDownload],
    h.1 ⟨[], []⟩ ["http://a"] rfl,
    h.2.2 ["http://x", "http://bad"] (by simp)⟩

/-- The copy loop is extensionally the filter-then-map the spec words
describe. -/
theorem copyOps_eq_spec (dups : List String) (files : List SrcFile) :
    copyOps dups files = copyPhaseSpec dups files := by
  unfold copyOps copyPhaseSpec
  induction files with
  | nil => rfl
  | cons f fs ih =>
    rw [List.filterMap_cons, List.filter_cons]
    cases h : dups.contains f.name with
    | true => simpa [h] using ih
    | false => simpa [h] using congrArg (fun l => (f.name, f.content) :: l) ih

/-- Membership in the copy operations, characterized. -/
theorem mem_copyOps (dups : List String) (files : List SrcFile)
    (n c : String) :
    (n, c) ∈ copyOps dups files ↔
      ∃ f ∈ files, dups.contains f.name = false ∧
        f.name = n ∧ f.content = c := by
  constructor
  · intro hm
    rw [copyOps, List.mem_filterMap] at hm
    obtain ⟨f, hf, hif⟩ := hm
    cases h : dups.contains f.name with
    | true =>
      rw [h] at hif
      simp at hif
    | false =>
      rw [h] at hif
      simp only [Bool.false_eq_true, if_false, Option.some.injEq,
        Prod.mk.injEq] at hif
      exact ⟨f, hf, h, hif.1, hif.2⟩
  · rintro ⟨f, hf, hcon, rfl, rfl⟩
    rw [copyOps, List.mem_filterMap]
    have hmem : f.name ∉ dups := by simpa using hcon
    exact ⟨f, hf, by simp [hmem]⟩

/-- C8: the deduplication copy phase is a pure filter — a file is copied
(name preserved, content unmodified) exactly when its base name is
absent from the duplicates set. -/
theorem dedup_copy_pure_filter (dups : List String)
    (files : List SrcFile) :
    copyOps dups files = copyPhaseSpec dups files ∧
    ∀ n c : String, (n, c) ∈ copyOps dups files ↔
      ∃ f ∈ files, dups.contains f.name = false ∧
        f.name = n ∧ f.content = c :=
  ⟨copyOps_eq_spec dups files, fun n c => mem_copyOps dups files n c⟩

/-- C8 witness: with `fileB`'s name in the duplicates set, only `fileA`
is copied, name and content intact. -/
theorem dedup_copy_pure_filter_witness :
    copyOps ["y.png"] [fileA, ⟨["a"], "y.png", "contentY"⟩] =
      copyPhaseSpec ["y.png"] [fileA, ⟨["a"], "y.png", "contentY"⟩] ∧
    (("x.png", "contentA") ∈
        copyOps ["y.png"] [fileA, ⟨["a"], "y.png", "contentY"⟩] ↔
      ∃ f ∈ [fileA, (⟨["a"], "y.png", "contentY"⟩ : SrcFile)],
        (["y.png"] : List String).contains f.name = false ∧
        f.name = "x.png" ∧ f.content = "contentA") :=
  ⟨(dedup_copy_pure_filter ["y.png"]
      [fileA, ⟨["a"], "y.png", "contentY"⟩]).1,
   (dedup_copy_pure_filter ["y.png"]
      [fileA, ⟨["a"], "y.png", "contentY"⟩]).2 "x.png" "contentA"⟩

/-- `getLast?` commutes with `map`. -/
theorem getLast?_map_comm {α β : Type} (g : α → β) :
    ∀ l : List α, (l.map g).getLast? = (l.getLast?).map g := by
  intro l
  induction l with
  | nil => rfl
  | cons a t ih =>
    cases t with
    | nil => rfl
    | cons b t2 =>
      rw [List.map_cons, List.map_cons, List.getLast?_cons_cons,
        List.getLast?_cons_cons, ← List.map_cons]
      exact ih

/-- Filtering the copy operations down to one destination name matches
filtering the source files down to the non-duplicates with that base
name. -/
theorem copyOps_filter_name (dups : List String) (files : List SrcFile)
    (n : String) :
    (copyOps dups files).filter (fun q => q.1 == n) =
      (files.filter fun f =>
        !(dups.contains f.name) && (f.name == n)).map
        fun f => (f.name, f.content) := by
  unfold copyOps
  induction files with
  | nil => rfl
  | cons f fs ih =>
    rw [List.filterMap_cons, List.filter_cons]
    cases h : dups.contains f.name with
    | true => simpa [h] using ih
    | false =>
      cases h2 : (f.name == n) with
      | true => simpa [h, h2, List.filter_cons] using ih
      | false => simpa [h, h2, List.filter_cons] using ih

/-- C10: the Deduplicator keys duplicate membership and destination
naming on base names only — two non-duplicate files from different
subdirectories with the same base name are both copied, to the same
destination path, and the destination ends up holding only the contents
of whichever source file was copied last. -/
theorem dedup_basename_collision (dups : List String)
    (files : List SrcFile) (destDir : String) (f1 f2 : SrcFile)
    (h1 : f1 ∈ files) (h2 : f2 ∈ files) (hn : f1.name = f2.name)
    (_hd : f1.dir ≠ f2.dir) (hc : dups.contains f1.name = false) :
    (f1.name, f1.content) ∈ copyOps dups files ∧
    (f1.name, f2.content) ∈ copyOps dups files ∧
    destFilepath destDir f1 = destFilepath destDir f2 ∧
    finalContents (copyOps dups files) f1.name =
      ((files.filter fun f =>
        !(dups.contains f.name) && (f.name == f1.name)).getLast?).map
        SrcFile.content := by
  refine ⟨?_, ?_, ?_, ?_⟩
  · exact (mem_copyOps dups files f1.name f1.content).mpr
      ⟨f1, h1, hc, rfl, rfl⟩
  · exact (mem_copyOps dups files f1.name f2.content).mpr
      ⟨f2, h2, by rw [← hn]; exact hc, hn.symm, rfl⟩
  · unfold destFilepath
    rw [hn]
  · unfold finalContents
    rw [copyOps_filter_name, getLast?_map_comm, Option.map_map]
    rfl

/-- C10 witness: `a/x.png` and `b/x.png`, neither a duplicate, are both
copied to `dest/x.png`; the destination retains `b/x.png`'s contents,
the one copied last. -/
theorem dedup_basename_collision_witness :
    fileA ∈ [fileA, fileB] ∧ fileB ∈ [fileA, fileB] ∧
    fileA.name = fileB.name ∧ fileA.dir ≠ fileB.dir ∧
    ([] : List String).contains fileA.name = false ∧
    finalContents (copyOps [] [fileA, fileB]) fileA.name =
      some "contentB" ∧
    ((fileA.name, fileA.content) ∈ copyOps [] [fileA, fileB] ∧
      (fileA.name, fileB.content) ∈ copyOps [] [fileA, fileB] ∧
      destFilepath "dest" fileA = destFilepath "dest" fileB ∧
      finalContents (copyOps [] [fileA, fileB]) fileA.name =
        (([fileA, fileB].filter fun f =>
          !(([] : List String).contains f.name) &&
            (f.name == fileA.name)).getLast?).map SrcFile.content) :=
  ⟨by simp, by simp, rfl, by simp [fileA, fileB], rfl,
    by simp [finalContents, copyOps, fileA, fileB, List.filterMap_cons],
    dedup_basename_collision [] [fileA, fileB] "dest" fileA fileB
      (by simp) (by simp) rfl (by simp [fileA, fileB]) rfl⟩

/-- C9: a cached model weight file is reused exactly when its MD5 equals
the known-good value (in which case the cached copy itself is used);
when the file is absent or its hash mismatches, it is re-downloaded from
its fixed URL, and `get_default_model_files` applies this rule to both
model files with their own known hash and URL. -/
theorem model_file_cache_validation (md5 : String → String)
    (fetch : String → String) (known url : String)
    (cachedP cachedW : Option String) :
    ((ensureModelFile md5 fetch known url cachedP).2 = false ↔
      ∃ c, cachedP = some c ∧ md5 c = known) ∧
    ((ensureModelFile md5 fetch known url cachedP).2 = false →
      (ensureModelFile md5 fetch known url cachedP).1 = cachedP) ∧
    ((∀ c, cachedP = some c → md5 c ≠ known) →
      ensureModelFile md5 fetch known url cachedP =
        (some (fetch url), true)) ∧
    get_default_model_files md5 fetch cachedP cachedW =
      (ensureModelFile md5 fetch prototxt_md5 prototxt_url cachedP,
       ensureModelFile md5 fetch model_weights_md5 model_weights_url
         cachedW) := by
  refine ⟨?_, ?_, ?_, rfl⟩
  · cases cachedP with
    | none => simp [ensureModelFile, get_md5_from_file]
    | some c =>
      by_cases h : md5 c = known
      · simp [ensureModelFile, get_md5_from_file, h]
      · simp [ensureModelFile, get_md5_from_file, h]
  · cases cachedP with
    | none => simp [ensureModelFile, get_md5_from_file]
    | some c =>
      by_cases h : md5 c = known
      · simp [ensureModelFile, get_md5_from_file, h]
      · simp [ensureModelFile, get_md5_from_file, h]
  · intro hm
    cases cachedP with
    | none => simp [ensureModelFile, get_md5_from_file]
    | some c =>
      have := hm c rfl
      simp [ensureModelFile, get_md5_from_file, this]

/-- C9 witness: an absent cached file triggers a download from the fixed
URL, and a cached file with the known-good hash is reused. -/
theorem model_file_cache_validation_witness :
    ensureModelFile md5Model fetchModel "k" "http://u" none =
      (some (fetchModel "http://u"), true) ∧
    (ensureModelFile md5Model fetchModel "k" "http://u" (some "k")).2 =
      false :=
  ⟨(model_file_cache_validation md5Model fetchModel "k" "http://u"
      none none).2.2.1 (fun _ hc => Option.noConfusion hc),
   ((model_file_cache_validation md5Model fetchModel "k" "http://u"
      (some "k") none).1).mpr ⟨"k", rfl, rfl⟩⟩

end HalloweenGan
